import Mathlib

/-!
Verification of the context-limit validator (`scripts/context_validator` and
`scripts/validate_context_limits.py`).

The pure computational core of the Python code is embedded shallowly:
- character/token accounting (`estimate_tokens`, `validate_file`,
  `validate_category`) over `ℕ`, with Python's `//` as `Nat` division;
- the quartile statistics (`statistics.quantiles` with `n=4`, method
  `exclusive`, as called by `compute_baseline_stats` / `detect_outliers`)
  over `ℚ` (Python floats on these inputs are exact small rationals);
- the accumulation loop of `main` over association lists mirroring Python
  dicts;
- the configuration loader and the git helpers as functions of the
  externally supplied file-system / subprocess outcomes, returning
  `Except` where the Python may raise.
-/

namespace ContextValidator

/-- Severity levels of `validator.py` (the `status` strings
"ok" / "info" / "warning" / "error"). -/
inductive Status where
  | ok
  | info
  | warning
  | error
deriving DecidableEq, Repr

/-- The order `ok < info < warning < error` from the spec's data model. -/
def statusRank : Status → ℕ
  | .ok => 0
  | .info => 1
  | .warning => 2
  | .error => 3

/-- `utils.estimate_tokens`: ceiling division implemented as
`(char_count + chars_per_token - 1) // chars_per_token`, with the explicit
`char_count == 0` short-circuit of the source. -/
def estimate_tokens (char_count : ℕ) (chars_per_token : ℕ) : ℕ :=
  if char_count = 0 then 0
  else (char_count + chars_per_token - 1) / chars_per_token

/-- Result record of `validator.validate_file` (the fields that carry
information; `path`/`provider` strings are external I/O). -/
structure ValidationResult where
  char_count : ℕ
  token_count : ℕ
  token_limit : ℕ
  status : Status
deriving DecidableEq, Repr

/-- `validator.validate_file`, as a function of the externally measured
`char_count` (from `get_char_count`) and the provider's `token_limit`
(from `get_provider_token_limit`); thresholds use Python `//`. -/
def validate_file (char_count chars_per_token token_limit info_pct warn_pct : ℕ) :
    ValidationResult :=
  let token_count := estimate_tokens char_count chars_per_token
  let info_threshold := token_limit * info_pct / 100
  let warn_threshold := token_limit * warn_pct / 100
  let status :=
    if token_count > token_limit then Status.error
    else if token_count > warn_threshold then Status.warning
    else if token_count > info_threshold then Status.info
    else Status.ok
  { char_count := char_count
    token_count := token_count
    token_limit := token_limit
    status := status }

/-- Result record of `validator.validate_category`. -/
structure CategoryResult where
  total_chars : ℕ
  budget : ℕ
  status : Status
deriving DecidableEq, Repr

/-- `validator.validate_category`: the identical four-tier rule applied to an
aggregate character total against a budget. -/
def validate_category (total_chars budget info_threshold_percent warn_threshold_percent : ℕ) :
    CategoryResult :=
  let info_threshold := budget * info_threshold_percent / 100
  let warn_threshold := budget * warn_threshold_percent / 100
  let status :=
    if total_chars > budget then Status.error
    else if total_chars > warn_threshold then Status.warning
    else if total_chars > info_threshold then Status.info
    else Status.ok
  { total_chars := total_chars
    budget := budget
    status := status }

/-- The status that `validate_file` assigns to a file whose token estimate is
exactly `tok`: feeding it `char_count = tok` with `chars_per_token = 1` makes
`estimate_tokens` the identity, isolating the classification rule. -/
def statusOfTokens (tok token_limit info_pct warn_pct : ℕ) : Status :=
  (validate_file tok 1 token_limit info_pct warn_pct).status

theorem estimate_tokens_one (tok : ℕ) : estimate_tokens tok 1 = tok := by
  unfold estimate_tokens
  split <;> omega

theorem statusOfTokens_eq (tok token_limit info_pct warn_pct : ℕ) :
    statusOfTokens tok token_limit info_pct warn_pct =
      (if tok > token_limit then Status.error
       else if tok > token_limit * warn_pct / 100 then Status.warning
       else if tok > token_limit * info_pct / 100 then Status.info
       else Status.ok) := by
  unfold statusOfTokens validate_file
  rw [estimate_tokens_one]

/-- **C1.** With `infoPct ≤ warnPct < 100` and `limit ≥ 1`, `validate_file`
classifies a token count equal to `warnThreshold = limit * warnPct // 100`
as not-"warning" (strict exceedance is required), a token count equal to the
limit as "warning" (hence not "error"), and `limit + 1` as "error". -/
theorem C1_validate_file_boundaries (token_limit info_pct warn_pct : ℕ)
    (hlim : 1 ≤ token_limit) (hiw : info_pct ≤ warn_pct) (hw : warn_pct < 100) :
    statusOfTokens (token_limit * warn_pct / 100) token_limit info_pct warn_pct ≠
        Status.warning ∧
      statusOfTokens token_limit token_limit info_pct warn_pct = Status.warning ∧
      statusOfTokens token_limit token_limit info_pct warn_pct ≠ Status.error ∧
      statusOfTokens (token_limit + 1) token_limit info_pct warn_pct = Status.error := by
  have hmul : token_limit * warn_pct < token_limit * 100 :=
    mul_lt_mul_of_pos_left hw (by omega)
  have hwarnlt : token_limit * warn_pct / 100 < token_limit :=
    Nat.div_lt_of_lt_mul (by omega)
  have hinfo : token_limit * info_pct ≤ token_limit * warn_pct :=
    Nat.mul_le_mul_left _ hiw
  have hinfole : token_limit * info_pct / 100 ≤ token_limit * warn_pct / 100 :=
    Nat.div_le_div_right hinfo
  rw [statusOfTokens_eq, statusOfTokens_eq, statusOfTokens_eq]
  refine ⟨?_, ?_, ?_, ?_⟩
  · split
    · simp
    · split
      · omega
      · split <;> simp
  · have h1 : ¬ token_limit > token_limit := by omega
    have h2 : token_limit > token_limit * warn_pct / 100 := hwarnlt
    simp [h1, h2]
  · have h1 : ¬ token_limit > token_limit := by omega
    have h2 : token_limit > token_limit * warn_pct / 100 := hwarnlt
    simp [h1, h2]
  · have h1 : token_limit + 1 > token_limit := by omega
    simp [h1]

/-- Witness for C1 at `limit = 100`, `infoPct = 50`, `warnPct = 75`. -/
theorem C1_witness :
    1 ≤ 100 ∧ 50 ≤ 75 ∧ 75 < 100 ∧
      (statusOfTokens (100 * 75 / 100) 100 50 75 ≠ Status.warning ∧
        statusOfTokens 100 100 50 75 = Status.warning ∧
        statusOfTokens 100 100 50 75 ≠ Status.error ∧
        statusOfTokens (100 + 1) 100 50 75 = Status.error) :=
  ⟨by norm_num, by norm_num, by norm_num,
    C1_validate_file_boundaries 100 50 75 (by norm_num) (by norm_num) (by norm_num)⟩

/-- **C4.** For every `charCount` and every `charsPerToken > 0`,
`estimate_tokens` is exactly the ceiling of `charCount / charsPerToken`,
and `estimate_tokens 0 _ = 0`. -/
theorem C4_estimate_tokens_ceil (c t : ℕ) (ht : 0 < t) :
    estimate_tokens c t = ⌈(c : ℚ) / (t : ℚ)⌉₊ ∧ estimate_tokens 0 t = 0 := by
  constructor
  · rcases Nat.eq_zero_or_pos c with hc | hc
    · subst hc
      simp [estimate_tokens]
    · have hc0 : c ≠ 0 := by omega
      unfold estimate_tokens
      rw [if_neg hc0]
      obtain ⟨r, hr, hmod⟩ : ∃ r, r < t ∧ (c + t - 1) / t * t + r = c + t - 1 :=
        ⟨(c + t - 1) % t, Nat.mod_lt _ ht, Nat.div_add_mod' _ _⟩
      have hn1 : 1 ≤ (c + t - 1) / t :=
        (Nat.one_le_div_iff ht).mpr (by omega)
      have hle : c ≤ (c + t - 1) / t * t := by omega
      have htle : t ≤ (c + t - 1) / t * t := Nat.le_mul_of_pos_left t hn1
      have hB : ((c + t - 1) / t - 1) * t = (c + t - 1) / t * t - t := by
        rw [Nat.sub_mul, one_mul]
      have hlt : ((c + t - 1) / t - 1) * t < c := by
        rw [hB]; omega
      have htQ : (0 : ℚ) < (t : ℚ) := by exact_mod_cast ht
      symm
      rw [Nat.ceil_eq_iff (by omega)]
      constructor
      · rw [lt_div_iff₀ htQ]
        exact_mod_cast hlt
      · rw [div_le_iff₀ htQ]
        exact_mod_cast hle
  · simp [estimate_tokens]

/-- Witness for C4 at `charCount = 5`, `charsPerToken = 4`. -/
theorem C4_witness :
    0 < 4 ∧ (estimate_tokens 5 4 = ⌈(5 : ℚ) / (4 : ℚ)⌉₊ ∧ estimate_tokens 0 4 = 0) :=
  ⟨by norm_num, C4_estimate_tokens_ceil 5 4 (by norm_num)⟩

theorem statusRank_tier (t L W I : ℕ) :
    statusRank (if t > L then Status.error else if t > W then Status.warning
      else if t > I then Status.info else Status.ok) =
      (if t > L then 3 else if t > W then 2 else if t > I then 1 else 0) := by
  by_cases h1 : t > L <;> by_cases h2 : t > W <;> by_cases h3 : t > I <;>
    simp [h1, h2, h3, statusRank]

theorem validate_category_status_eq (total_chars budget ip wp : ℕ) :
    (validate_category total_chars budget ip wp).status =
      (if total_chars > budget then Status.error
       else if total_chars > budget * wp / 100 then Status.warning
       else if total_chars > budget * ip / 100 then Status.info
       else Status.ok) := rfl

/-- **C8.** For fixed limit and thresholds, the severity assigned by
`validate_file` (measured at a given token count) and by `validate_category`
is monotone in the measured size, in the order ok < info < warning < error. -/
theorem C8_severity_monotone (token_limit info_pct warn_pct budget t1 t2 : ℕ)
    (h : t1 ≤ t2) :
    statusRank (statusOfTokens t1 token_limit info_pct warn_pct) ≤
        statusRank (statusOfTokens t2 token_limit info_pct warn_pct) ∧
      statusRank (validate_category t1 budget info_pct warn_pct).status ≤
        statusRank (validate_category t2 budget info_pct warn_pct).status := by
  constructor
  · rw [statusOfTokens_eq, statusOfTokens_eq, statusRank_tier, statusRank_tier]
    split_ifs <;> omega
  · rw [validate_category_status_eq, validate_category_status_eq,
      statusRank_tier, statusRank_tier]
    split_ifs <;> omega

/-- Witness for C8 at `t1 = 70 ≤ t2 = 101`, limit 100, thresholds 50/75. -/
theorem C8_witness :
    70 ≤ 101 ∧
      (statusRank (statusOfTokens 70 100 50 75) ≤
          statusRank (statusOfTokens 101 100 50 75) ∧
        statusRank (validate_category 70 100 50 75).status ≤
          statusRank (validate_category 101 100 50 75).status) :=
  ⟨by norm_num, C8_severity_monotone 100 50 75 100 70 101 (by norm_num)⟩

/-- Python `sorted` on the integer samples (nondecreasing). -/
def pySorted (data : List ℤ) : List ℤ := List.insertionSort (· ≤ ·) data

/-- One interpolated cut point of `statistics.quantiles(data, n=4)` with the
default `method='exclusive'` (the CPython implementation), for already-sorted
data `d`: `j, delta = divmod(i * (ld + 1), 4)`, `j` clamped to `1 .. ld - 1`,
then `(d[j-1] * (4 - delta) + d[j] * delta) / 4`. -/
def interp4 (d : List ℤ) (i : ℕ) : ℚ :=
  let ld := d.length
  let j0 := i * (ld + 1) / 4
  let delta := i * (ld + 1) % 4
  let j := if j0 < 1 then 1 else if j0 > ld - 1 then ld - 1 else j0
  ((d.getD (j - 1) 0 : ℚ) * ((4 : ℚ) - (delta : ℚ)) + (d.getD j 0 : ℚ) * (delta : ℚ)) / 4

/-- `statistics.quantiles(data, n=4)` (exclusive method), as called by
`stats.py`: sort the data, return the three cut points `i = 1, 2, 3`.
Both callers guard `len(data) >= 4`, so the `ld < 2` `StatisticsError` branch
of the library function is unreachable here. -/
def quantiles4 (data : List ℤ) : ℚ × ℚ × ℚ :=
  let d := pySorted data
  (interp4 d 1, interp4 d 2, interp4 d 3)

/-- `stats.BaselineStats`. -/
structure BaselineStats where
  q1 : ℚ
  q3 : ℚ
  iqr : ℚ
  lower_fence : ℚ
  upper_fence : ℚ
  file_count : ℕ
deriving DecidableEq, Repr

/-- `stats.compute_baseline_stats` (also duplicated verbatim in
`validate_context_limits.py`). -/
def compute_baseline_stats (file_sizes : List ℤ) (iqr_multiplier : ℚ) :
    Option BaselineStats :=
  if file_sizes.length < 4 then none
  else
    let q := quantiles4 file_sizes
    let q1 := q.1
    let q3 := q.2.2
    let iqr := q3 - q1
    if iqr = 0 then none
    else
      some { q1 := q1
             q3 := q3
             iqr := iqr
             lower_fence := q1 - iqr_multiplier * iqr
             upper_fence := q3 + iqr_multiplier * iqr
             file_count := file_sizes.length }

/-- `stats.detect_outliers`: Tukey's fences; returns the index lists
`(lower_outliers, upper_outliers)` built by `enumerate`-filtering. -/
def detect_outliers (file_sizes : List ℤ) (iqr_multiplier : ℚ) :
    List ℕ × List ℕ :=
  if file_sizes.length < 4 then ([], [])
  else
    let q := quantiles4 file_sizes
    let q1 := q.1
    let q3 := q.2.2
    let iqr := q3 - q1
    if iqr = 0 then ([], [])
    else
      let lower_fence := q1 - iqr_multiplier * iqr
      let upper_fence := q3 + iqr_multiplier * iqr
      ((List.range file_sizes.length).filter
          (fun i => ((file_sizes.getD i 0 : ℚ) < lower_fence : Bool)),
        (List.range file_sizes.length).filter
          (fun i => ((file_sizes.getD i 0 : ℚ) > upper_fence : Bool)))

/-- **C2.** The spec's reference examples for `detect_outliers`: on
`[100,101,102,103,104,105,106,5000]` with multiplier `1.5` exactly index 7
(the value 5000) is an upper outlier and there is no lower outlier; on
`[1,1000,1000,1000,1000]` with multiplier `0.1` exactly index 0 (value 1) is
a lower outlier and there is no upper outlier; with multiplier `1.5` that
input has no outliers at all. -/
theorem C2_detect_outliers_reference_examples :
    detect_outliers [100, 101, 102, 103, 104, 105, 106, 5000] (3 / 2) = ([], [7]) ∧
      detect_outliers [1, 1000, 1000, 1000, 1000] (1 / 10) = ([0], []) ∧
      detect_outliers [1, 1000, 1000, 1000, 1000] (3 / 2) = ([], []) := by
  refine ⟨?_, ?_, ?_⟩ <;>
    norm_num [detect_outliers, quantiles4, pySorted, interp4, List.insertionSort,
      List.orderedInsert, List.range_succ, List.filter_append, List.filter]

theorem length_pySorted (data : List ℤ) : (pySorted data).length = data.length :=
  List.length_insertionSort _ _

theorem sorted_pySorted (data : List ℤ) : List.Sorted (· ≤ ·) (pySorted data) :=
  List.sorted_insertionSort _ _

theorem getD_le_getD_of_sorted (d : List ℤ) (hs : List.Sorted (· ≤ ·) d)
    {i j : ℕ} (hij : i ≤ j) (hj : j < d.length) :
    d.getD i 0 ≤ d.getD j 0 := by
  have hi : i < d.length := Nat.lt_of_le_of_lt hij hj
  rw [List.getD_eq_getElem d 0 hi, List.getD_eq_getElem d 0 hj]
  have := hs.rel_get_of_le (a := ⟨i, hi⟩) (b := ⟨j, hj⟩) (Fin.mk_le_mk.mpr hij)
  simpa using this

theorem interp4_no_clamp (d : List ℤ) (i : ℕ)
    (h1 : 1 ≤ i * (d.length + 1) / 4) (h2 : i * (d.length + 1) / 4 ≤ d.length - 1) :
    interp4 d i =
      ((d.getD (i * (d.length + 1) / 4 - 1) 0 : ℚ) *
            ((4 : ℚ) - (i * (d.length + 1) % 4 : ℕ))
          + (d.getD (i * (d.length + 1) / 4) 0 : ℚ) * (i * (d.length + 1) % 4 : ℕ)) / 4 := by
  simp only [interp4]
  rw [if_neg (by omega), if_neg (by omega)]

theorem convex4_le_right (a b δ : ℚ) (hab : a ≤ b) (_h0 : 0 ≤ δ) (h4 : δ ≤ 4) :
    (a * (4 - δ) + b * δ) / 4 ≤ b := by nlinarith

theorem left_le_convex4 (a b δ : ℚ) (hab : a ≤ b) (h0 : 0 ≤ δ) (_h4 : δ ≤ 4) :
    a ≤ (a * (4 - δ) + b * δ) / 4 := by nlinarith

theorem quantiles4_q1_le_q3 (data : List ℤ) (hd : 4 ≤ data.length) :
    (quantiles4 data).1 ≤ (quantiles4 data).2.2 := by
  unfold quantiles4
  simp only
  have hlen : (pySorted data).length = data.length := length_pySorted data
  have hs : List.Sorted (· ≤ ·) (pySorted data) := sorted_pySorted data
  set d := pySorted data with hdd
  have hld : 4 ≤ d.length := by omega
  have hj1lo : 1 ≤ 1 * (d.length + 1) / 4 := by omega
  have hj1hi : 1 * (d.length + 1) / 4 ≤ d.length - 1 := by omega
  have hj3lo : 1 ≤ 3 * (d.length + 1) / 4 := by omega
  have hj3hi : 3 * (d.length + 1) / 4 ≤ d.length - 1 := by omega
  rw [interp4_no_clamp d 1 hj1lo hj1hi, interp4_no_clamp d 3 hj3lo hj3hi]
  set j1 := 1 * (d.length + 1) / 4 with hj1
  set j3 := 3 * (d.length + 1) / 4 with hj3
  have hj13 : j1 ≤ j3 - 1 := by omega
  have hab1 : d.getD (j1 - 1) 0 ≤ d.getD j1 0 :=
    getD_le_getD_of_sorted d hs (by omega) (by omega)
  have hab3 : d.getD (j3 - 1) 0 ≤ d.getD j3 0 :=
    getD_le_getD_of_sorted d hs (by omega) (by omega)
  have hmid : d.getD j1 0 ≤ d.getD (j3 - 1) 0 :=
    getD_le_getD_of_sorted d hs hj13 (by omega)
  have hd1n : (0 : ℚ) ≤ (1 * (d.length + 1) % 4 : ℕ) := Nat.cast_nonneg _
  have hd1u : ((1 * (d.length + 1) % 4 : ℕ) : ℚ) ≤ 4 := by
    have h : 1 * (d.length + 1) % 4 ≤ 4 := by omega
    exact_mod_cast h
  have hd3n : (0 : ℚ) ≤ (3 * (d.length + 1) % 4 : ℕ) := Nat.cast_nonneg _
  have hd3u : ((3 * (d.length + 1) % 4 : ℕ) : ℚ) ≤ 4 := by
    have h : 3 * (d.length + 1) % 4 ≤ 4 := by omega
    exact_mod_cast h
  calc ((d.getD (j1 - 1) 0 : ℚ) * ((4 : ℚ) - (1 * (d.length + 1) % 4 : ℕ))
          + (d.getD j1 0 : ℚ) * (1 * (d.length + 1) % 4 : ℕ)) / 4
      ≤ (d.getD j1 0 : ℚ) :=
        convex4_le_right _ _ _ (by exact_mod_cast hab1) hd1n hd1u
    _ ≤ (d.getD (j3 - 1) 0 : ℚ) := by exact_mod_cast hmid
    _ ≤ ((d.getD (j3 - 1) 0 : ℚ) * ((4 : ℚ) - (3 * (d.length + 1) % 4 : ℕ))
          + (d.getD j3 0 : ℚ) * (3 * (d.length + 1) % 4 : ℕ)) / 4 :=
        left_le_convex4 _ _ _ (by exact_mod_cast hab3) hd3n hd3u

/-- **C5.** `compute_baseline_stats` returns `none` for fewer than 4 samples
and for zero interquartile range (in particular for four identical sizes);
and whenever it does return stats for a positive multiplier, they satisfy
`lowerFence < Q1 < Q3 < upperFence`. -/
theorem C5_compute_baseline_stats_fences (sizes : List ℤ) (mult : ℚ) (c : ℤ)
    (hm : 0 < mult) :
    (sizes.length < 4 → compute_baseline_stats sizes mult = none) ∧
      compute_baseline_stats [c, c, c, c] mult = none ∧
      (∀ s, compute_baseline_stats sizes mult = some s →
        s.lower_fence < s.q1 ∧ s.q1 < s.q3 ∧ s.q3 < s.upper_fence) := by
  refine ⟨?_, ?_, ?_⟩
  · intro h4
    simp [compute_baseline_stats, h4]
  · have hsort : pySorted [c, c, c, c] = [c, c, c, c] := by
      simp [pySorted, List.insertionSort, List.orderedInsert]
    have hq : (quantiles4 [c, c, c, c]).2.2 - (quantiles4 [c, c, c, c]).1 = 0 := by
      simp only [quantiles4, hsort, interp4]
      norm_num
      ring
    simp [compute_baseline_stats, hq]
  · intro s hs
    unfold compute_baseline_stats at hs
    by_cases h4 : sizes.length < 4
    · simp [h4] at hs
    · by_cases hiqr : (quantiles4 sizes).2.2 - (quantiles4 sizes).1 = 0
      · simp [h4, hiqr] at hs
      · simp only [h4, if_false, hiqr, Option.some.injEq] at hs
        have hle : (quantiles4 sizes).1 ≤ (quantiles4 sizes).2.2 :=
          quantiles4_q1_le_q3 sizes (by omega)
        have hlt : (quantiles4 sizes).1 < (quantiles4 sizes).2.2 := by
          rcases lt_or_eq_of_le hle with h | h
          · exact h
          · exact absurd (by rw [h]; ring) hiqr
        subst hs
        refine ⟨?_, hlt, ?_⟩ <;> simp only <;> nlinarith

/-- Witness for C5 at `sizes = [1,2,3]`, `mult = 1`, `c = 5`. -/
theorem C5_witness :
    (0 : ℚ) < 1 ∧ ([(1 : ℤ), 2, 3].length < 4 → compute_baseline_stats [1, 2, 3] 1 = none) ∧
      compute_baseline_stats [(5 : ℤ), 5, 5, 5] 1 = none :=
  ⟨by norm_num,
    (C5_compute_baseline_stats_fences [1, 2, 3] 1 5 (by norm_num)).1,
    (C5_compute_baseline_stats_fences [1, 2, 3] 1 5 (by norm_num)).2.1⟩

/-- **C10.** `detect_outliers` and `compute_baseline_stats` are two views of
one statistical core: when the latter returns `none` the former returns two
empty lists, and when it returns stats the former returns exactly the indices
whose size lies strictly below the lower fence (resp. strictly above the
upper fence). -/
theorem C10_detect_outliers_refines_baseline_stats (sizes : List ℤ) (mult : ℚ) :
    detect_outliers sizes mult =
      (match compute_baseline_stats sizes mult with
        | none => ([], [])
        | some s =>
            ((List.range sizes.length).filter
                (fun i => ((sizes.getD i 0 : ℚ) < s.lower_fence : Bool)),
              (List.range sizes.length).filter
                (fun i => ((sizes.getD i 0 : ℚ) > s.upper_fence : Bool)))) := by
  unfold detect_outliers compute_baseline_stats
  by_cases h4 : sizes.length < 4
  · simp [h4]
  · by_cases hiqr : (quantiles4 sizes).2.2 - (quantiles4 sizes).1 = 0
    · simp [h4, hiqr]
    · simp [h4, hiqr]

/-- Lookup in the `category_totals` dict (`dict.get(key, 0)`). -/
def getTotal : List (String × ℕ) → String → ℕ
  | [], _ => 0
  | (k, v) :: rest, key => if k = key then v else getTotal rest key

/-- Assignment `category_totals[key] = v` on a Python dict: replace the
existing entry in place, else append. -/
def updateTotal : List (String × ℕ) → String → ℕ → List (String × ℕ)
  | [], key, v => [(key, v)]
  | (k, v') :: rest, key, v =>
      if k = key then (key, v) :: rest else (k, v') :: updateTotal rest key v

/-- The accumulator variables of the reporting loop in `main`. Both
`context_validator/main.py` and `validate_context_limits.py` declare these
same variables and share the per-file loop body (`flushSection` /
`processFile`); they differ *after* the loop: only
`validate_context_limits.py` stores the last section's total
(`finalFlush`), while `context_validator/main.py`'s post-loop block merely
prints it (`runMainLoopNoStore`). -/
structure LoopState where
  current_section : String
  section_total_tokens : ℕ
  category_totals : List (String × ℕ)
  overall_total_tokens : ℕ
deriving DecidableEq, Repr

/-- The section-change bookkeeping at the top of the per-file loop body: on a
section change the previous section's running total is folded into
`category_totals` (`prev_total + section_total_tokens`), skipped for the
initial sentinel `current_section = ""` (Python string truthiness), and the
running counters reset. -/
def flushSection (st : LoopState) (section_name : String) : LoopState :=
  if section_name ≠ st.current_section then
    { current_section := section_name
      section_total_tokens := 0
      category_totals :=
        if st.current_section ≠ "" then
          updateTotal st.category_totals st.current_section
            (getTotal st.category_totals st.current_section + st.section_total_tokens)
        else st.category_totals
      overall_total_tokens := st.overall_total_tokens }
  else st

/-- One iteration of the per-file loop body, as a function of the file's
token count `tok` (`result.token_count`). -/
def processFile (st : LoopState) (section_name : String) (tok : ℕ) : LoopState :=
  let st1 := flushSection st section_name
  { st1 with
    section_total_tokens := st1.section_total_tokens + tok
    overall_total_tokens := st1.overall_total_tokens + tok }

/-- The post-loop "Store last section total" step of
`validate_context_limits.py` (lines 557-562). `context_validator/main.py`
has no counterpart: its post-loop block (lines 92-95) only prints the last
section's total and never writes it into `category_totals`. -/
def finalFlush (st : LoopState) : LoopState :=
  if st.current_section ≠ "" then
    { st with
      category_totals :=
        updateTotal st.category_totals st.current_section
          (getTotal st.category_totals st.current_section + st.section_total_tokens) }
  else st

/-- Initial accumulator values of `main`. -/
def initState : LoopState :=
  { current_section := ""
    section_total_tokens := 0
    category_totals := []
    overall_total_tokens := 0 }

/-- The whole accumulation loop of `validate_context_limits.py`'s `main`:
for each `(section, pattern)` entry of `file_checks`, the externally
discovered files contribute their token counts in order; afterwards the last
section's total is stored into `category_totals`. -/
def runMainLoop (checks : List (String × List ℕ)) : LoopState :=
  finalFlush
    (checks.foldl
      (fun st c => c.2.foldl (fun st' tok => processFile st' c.1 tok) st)
      initState)

/-- The whole accumulation loop of `context_validator/main.py`'s `main`: the
identical per-file body, but the post-loop block (lines 92-95) only prints,
so the last section's running total is never stored into `category_totals`. -/
def runMainLoopNoStore (checks : List (String × List ℕ)) : LoopState :=
  checks.foldl
    (fun st c => c.2.foldl (fun st' tok => processFile st' c.1 tok) st)
    initState

/-- Sum of the values of `category_totals`. -/
def sumTotals (l : List (String × ℕ)) : ℕ := (l.map Prod.snd).sum

theorem sumTotals_updateTotal (l : List (String × ℕ)) (k : String) (δ : ℕ) :
    sumTotals (updateTotal l k (getTotal l k + δ)) = sumTotals l + δ := by
  induction l with
  | nil => simp [updateTotal, getTotal, sumTotals]
  | cons hd tl ih =>
      obtain ⟨k', v'⟩ := hd
      by_cases h : k' = k
      · subst h
        simp [updateTotal, getTotal, sumTotals]
        omega
      · simp only [updateTotal, getTotal, if_neg h, sumTotals, List.map_cons,
          List.sum_cons] at ih ⊢
        omega

/-- The loop invariant tying the overall counter to the category totals. -/
def LoopInv (st : LoopState) : Prop :=
  st.overall_total_tokens = sumTotals st.category_totals + st.section_total_tokens ∧
    (st.current_section = "" → st.section_total_tokens = 0)

theorem loopInv_processFile (st : LoopState) (sec : String) (tok : ℕ)
    (h : LoopInv st) (hsec : sec ≠ "") : LoopInv (processFile st sec tok) := by
  obtain ⟨h1, h2⟩ := h
  unfold processFile flushSection
  by_cases hch : sec ≠ st.current_section
  · rw [if_pos hch]
    by_cases hcur : st.current_section ≠ ""
    · rw [if_pos hcur]
      refine ⟨?_, fun hc => absurd hc hsec⟩
      dsimp only [LoopInv]
      rw [sumTotals_updateTotal]
      omega
    · rw [if_neg hcur]
      push_neg at hcur
      have h0 : st.section_total_tokens = 0 := h2 hcur
      refine ⟨?_, fun hc => absurd hc hsec⟩
      dsimp only [LoopInv]
      omega
  · rw [if_neg hch]
    push_neg at hch
    refine ⟨?_, ?_⟩
    · dsimp only [LoopInv]
      omega
    · intro hc
      dsimp only [LoopInv] at hc
      exact absurd (hch.trans hc) hsec

theorem loopInv_foldl_section (sec : String) (hsec : sec ≠ "") (toks : List ℕ) :
    ∀ st : LoopState, LoopInv st →
      LoopInv (toks.foldl (fun st' tok => processFile st' sec tok) st) := by
  induction toks with
  | nil => intro st h; simpa using h
  | cons t ts ih =>
      intro st h
      simp only [List.foldl_cons]
      exact ih _ (loopInv_processFile st sec t h hsec)

theorem loopInv_foldl_checks (checks : List (String × List ℕ))
    (hsec : ∀ c ∈ checks, c.1 ≠ "") :
    ∀ st : LoopState, LoopInv st →
      LoopInv (checks.foldl
        (fun st c => c.2.foldl (fun st' tok => processFile st' c.1 tok) st) st) := by
  induction checks with
  | nil => intro st h; simpa using h
  | cons c cs ih =>
      intro st h
      simp only [List.foldl_cons]
      refine ih (fun x hx => hsec x (List.mem_cons_of_mem _ hx)) _ ?_
      exact loopInv_foldl_section c.1 (hsec c (List.mem_cons_self _ _)) c.2 st h

theorem overall_processFile (st : LoopState) (sec : String) (tok : ℕ) :
    (processFile st sec tok).overall_total_tokens = st.overall_total_tokens + tok := by
  unfold processFile flushSection
  by_cases hch : sec ≠ st.current_section
  · rw [if_pos hch]
  · rw [if_neg hch]

theorem overall_foldl_section (sec : String) (toks : List ℕ) :
    ∀ st : LoopState,
      (toks.foldl (fun st' tok => processFile st' sec tok) st).overall_total_tokens =
        st.overall_total_tokens + toks.sum := by
  induction toks with
  | nil => intro st; simp
  | cons t ts ih =>
      intro st
      simp only [List.foldl_cons, List.sum_cons]
      rw [ih, overall_processFile]
      omega

theorem overall_foldl_checks (checks : List (String × List ℕ)) :
    ∀ st : LoopState,
      (checks.foldl
          (fun st c => c.2.foldl (fun st' tok => processFile st' c.1 tok) st)
          st).overall_total_tokens =
        st.overall_total_tokens + (checks.map (fun c => c.2.sum)).sum := by
  induction checks with
  | nil => intro st; simp
  | cons c cs ih =>
      intro st
      simp only [List.foldl_cons, List.map_cons, List.sum_cons]
      rw [ih, overall_foldl_section]
      omega

theorem overall_finalFlush (st : LoopState) :
    (finalFlush st).overall_total_tokens = st.overall_total_tokens := by
  unfold finalFlush
  split <;> rfl

/-- **C9 counterexample.** In `context_validator/main.py` the post-loop
block only prints and never stores the last section's total: with a single
section holding one 1-token file, `category_totals` stays empty (sum 0)
while the overall total is 1, so the claimed sum-equals-overall round-trip
fails for that cited `main`. -/
theorem C9_counterexample :
    sumTotals (runMainLoopNoStore
        [("Repository Instructions", [1])]).category_totals = 0 ∧
      (runMainLoopNoStore
          [("Repository Instructions", [1])]).overall_total_tokens = 1 ∧
      sumTotals (runMainLoopNoStore
          [("Repository Instructions", [1])]).category_totals ≠
        (runMainLoopNoStore
            [("Repository Instructions", [1])]).overall_total_tokens := by
  refine ⟨rfl, rfl, ?_⟩
  decide

/-- **C9 (amended).** For every list of discovered section/token-count
groups (with the real, nonempty section names of `file_checks`): in
`validate_context_limits.py`'s `main`, which stores the last section's total
after the loop, the per-category totals sum exactly to the overall total
token count, which is the sum of every file's token count (each counted
once); in `context_validator/main.py`'s `main`, whose post-loop block only
prints, the last processed section's running total is missing from
`category_totals`, and the round-trip holds only after adding that residue
back: `sum(category_totals) + section_total_tokens = overall`. -/
theorem C9_category_totals_roundtrip (checks : List (String × List ℕ))
    (hsec : ∀ c ∈ checks, c.1 ≠ "") :
    (sumTotals (runMainLoop checks).category_totals =
        (runMainLoop checks).overall_total_tokens ∧
      (runMainLoop checks).overall_total_tokens =
        (checks.map (fun c => c.2.sum)).sum) ∧
      (sumTotals (runMainLoopNoStore checks).category_totals +
          (runMainLoopNoStore checks).section_total_tokens =
        (runMainLoopNoStore checks).overall_total_tokens ∧
      (runMainLoopNoStore checks).overall_total_tokens =
        (checks.map (fun c => c.2.sum)).sum) := by
  have hinv : LoopInv (checks.foldl
      (fun st c => c.2.foldl (fun st' tok => processFile st' c.1 tok) st) initState) :=
    loopInv_foldl_checks checks hsec initState (by constructor <;> simp [initState, sumTotals])
  refine ⟨⟨?_, ?_⟩, ?_, ?_⟩
  · obtain ⟨h1, h2⟩ := hinv
    unfold runMainLoop finalFlush
    by_cases hcur : (checks.foldl
        (fun st c => c.2.foldl (fun st' tok => processFile st' c.1 tok) st)
        initState).current_section ≠ ""
    · rw [if_pos hcur]
      simp only
      rw [sumTotals_updateTotal]
      omega
    · rw [if_neg hcur]
      push_neg at hcur
      have := h2 hcur
      omega
  · unfold runMainLoop
    rw [overall_finalFlush, overall_foldl_checks]
    simp [initState]
  · obtain ⟨h1, _⟩ := hinv
    unfold runMainLoopNoStore
    omega
  · unfold runMainLoopNoStore
    rw [overall_foldl_checks]
    simp [initState]

/-- Witness for C9 (amended) on two concrete sections. -/
theorem C9_witness :
    (∀ c ∈ [("A", [1, 2]), ("B", [3])], c.1 ≠ "") ∧
      ((sumTotals (runMainLoop [("A", [1, 2]), ("B", [3])]).category_totals =
          (runMainLoop [("A", [1, 2]), ("B", [3])]).overall_total_tokens ∧
        (runMainLoop [("A", [1, 2]), ("B", [3])]).overall_total_tokens =
          ([("A", [1, 2]), ("B", [3])].map (fun c => c.2.sum)).sum) ∧
      (sumTotals (runMainLoopNoStore [("A", [1, 2]), ("B", [3])]).category_totals +
          (runMainLoopNoStore [("A", [1, 2]), ("B", [3])]).section_total_tokens =
        (runMainLoopNoStore [("A", [1, 2]), ("B", [3])]).overall_total_tokens ∧
      (runMainLoopNoStore [("A", [1, 2]), ("B", [3])]).overall_total_tokens =
        ([("A", [1, 2]), ("B", [3])].map (fun c => c.2.sum)).sum)) :=
  ⟨by decide, C9_category_totals_roundtrip [("A", [1, 2]), ("B", [3])] (by decide)⟩

/-- A parsed Python value stored in the config dict (`load_config` stores
`int(value)` for values without a decimal point, `float(value)` otherwise). -/
inductive ConfigValue where
  | intVal (i : ℤ)
  | floatVal (q : ℚ)
deriving DecidableEq, Repr

/-- One stripped line of the config file, at the granularity `load_config`
distinguishes: blank, comment (`#`-prefixed), a line without `=` (silently
ignored), or an assignment whose value string either parses (no `.` ⇒
`int(value)`, with `.` ⇒ `float(value)`) or makes that parse raise
`ValueError` (`badInt` / `badFloat`). The lexical layer (`strip`,
`split("=", 1)`, `"." in value`) is the external collaborator that supplies
these tokens. -/
inductive ConfLine where
  | blank
  | comment
  | noEquals
  | assign (key : String) (value : ConfigValue)
  | badInt (key : String)
  | badFloat (key : String)
deriving DecidableEq, Repr

/-- How `load_config` (or `main`) terminates abnormally: `sys.exit(1)` for a
missing config file, or an uncaught `ValueError` from `int()`/`float()`. -/
inductive PyAbort where
  | sysExit (code : ℕ)
  | valueError
deriving DecidableEq, Repr

/-- Python dict assignment for the config dict. -/
def updateConfig : List (String × ConfigValue) → String → ConfigValue →
    List (String × ConfigValue)
  | [], key, v => [(key, v)]
  | (k, v') :: rest, key, v =>
      if k = key then (key, v) :: rest else (k, v') :: updateConfig rest key v

/-- The body of `load_config`'s line loop: skip blanks, comments and lines
without `=`; store parsed values; let a `ValueError` from `int()`/`float()`
propagate (there is no try/except around the loop). -/
def parseConfigLine (cfg : List (String × ConfigValue)) :
    ConfLine → Except PyAbort (List (String × ConfigValue))
  | .blank => .ok cfg
  | .comment => .ok cfg
  | .noEquals => .ok cfg
  | .assign key v => .ok (updateConfig cfg key v)
  | .badInt _ => .error .valueError
  | .badFloat _ => .error .valueError

/-- `config.load_config`: `sys.exit(1)` if the file does not exist, else the
line loop over the file's lines. -/
def load_config (file_exists : Bool) (lines : List ConfLine) :
    Except PyAbort (List (String × ConfigValue)) :=
  if !file_exists then .error (.sysExit 1)
  else lines.foldlM parseConfigLine []

/-- Python dict lookup `config.get(key, default)` followed by `int(...)` as
done in `main` (Python `int(float)` truncates toward zero). -/
def getConfigInt (cfg : List (String × ConfigValue)) (key : String)
    (default : ℤ) : ℤ :=
  match cfg.find? (fun e => e.1 = key) with
  | none => default
  | some (_, .intVal i) => i
  | some (_, .floatVal q) => if q < 0 then ⌈q⌉ else ⌊q⌋

/-- The configuration stage of `main` (`main.py` lines 23-26): load the
config, then read the three numeric keys with built-in defaults `50`, `75`,
`4`. Every file classification happens after this stage, so an `.error`
result is an abort before any classification. -/
def run_config_stage (file_exists : Bool) (lines : List ConfLine) :
    Except PyAbort (ℤ × ℤ × ℤ) := do
  let cfg ← load_config file_exists lines
  pure (getConfigInt cfg "INFO_THRESHOLD_PERCENT" 50,
    getConfigInt cfg "WARN_THRESHOLD_PERCENT" 75,
    getConfigInt cfg "CHARS_PER_TOKEN" 4)

/-- A line whose value makes `int()`/`float()` raise. -/
def lineMalformed : ConfLine → Bool
  | .badInt _ => true
  | .badFloat _ => true
  | _ => false

theorem parseConfigLine_ok_of_not_malformed (line : ConfLine)
    (h : lineMalformed line = false) (cfg : List (String × ConfigValue)) :
    ∃ cfg', parseConfigLine cfg line = .ok cfg' := by
  cases line <;> simp_all [lineMalformed, parseConfigLine]

theorem foldlM_error_of_malformed (lines : List ConfLine) :
    ∀ cfg : List (String × ConfigValue),
      (∃ line ∈ lines, lineMalformed line = true) →
        lines.foldlM parseConfigLine cfg = .error PyAbort.valueError := by
  induction lines with
  | nil => intro cfg h; simp at h
  | cons l ls ih =>
      intro cfg h
      rw [List.foldlM_cons]
      by_cases hl : lineMalformed l = true
      · cases l <;> first
          | rfl
          | (simp only [lineMalformed] at hl; exact Bool.noConfusion hl)
      · obtain ⟨cfg', hcfg'⟩ :=
          parseConfigLine_ok_of_not_malformed l (by simpa using hl) cfg
        rw [hcfg']
        obtain ⟨line, hmem, hbad⟩ := h
        rcases List.mem_cons.mp hmem with rfl | hmem'
        · exact absurd hbad hl
        · simpa [Except.bind] using ih cfg' ⟨line, hmem', hbad⟩

/-- **C6 counterexample.** A configuration file that exists but contains none
of the required numeric keys does *not* abort: `main` proceeds with the
built-in defaults `(50, 75, 4)`, contradicting the claim that a missing
required key is fatal. -/
theorem C6_counterexample :
    run_config_stage true [] = Except.ok (50, 75, 4) ∧
      ¬∃ e, run_config_stage true [] = Except.error e := by
  constructor
  · rfl
  · rintro ⟨e, he⟩
    rw [show run_config_stage true [] = Except.ok (50, 75, 4) from rfl] at he
    exact Except.noConfusion he

/-- **C6 (amended).** A missing configuration *file* is fatal
(`sys.exit(1)`), and a *malformed* numeric value is fatal: the `ValueError`
from `int()`/`float()` propagates, aborting before any classification. But a
missing required key is not fatal: with an existing file that assigns none
of the required keys, the run continues with the defaults `(50, 75, 4)`. -/
theorem C6_config_loading_amended (lines : List ConfLine) :
    load_config false lines = Except.error (PyAbort.sysExit 1) ∧
      ((∃ line ∈ lines, lineMalformed line = true) →
        run_config_stage true lines = Except.error PyAbort.valueError) ∧
      run_config_stage true [] = Except.ok (50, 75, 4) := by
  refine ⟨rfl, ?_, rfl⟩
  intro h
  have herr := foldlM_error_of_malformed lines [] h
  simp [run_config_stage, load_config, herr, Except.bind]

/-- Witness for C6 (amended) on a file with one malformed value line. -/
theorem C6_witness :
    (∃ line ∈ [ConfLine.badInt "CHARS_PER_TOKEN"], lineMalformed line = true) ∧
      run_config_stage true [ConfLine.badInt "CHARS_PER_TOKEN"] =
        Except.error PyAbort.valueError :=
  ⟨⟨ConfLine.badInt "CHARS_PER_TOKEN", by simp, rfl⟩,
    (C6_config_loading_amended [ConfLine.badInt "CHARS_PER_TOKEN"]).2.1
      ⟨ConfLine.badInt "CHARS_PER_TOKEN", by simp, rfl⟩⟩

/-- Outcome of one `subprocess.run(..., check=True)` invocation, supplied by
the environment: normal completion (stdout, as its list of lines), a nonzero
exit status (with `check=True` Python raises
`subprocess.CalledProcessError`), or an `OSError`-family failure (e.g.
`FileNotFoundError` when the `git` executable is missing), which an
`except subprocess.CalledProcessError` clause does not catch. -/
inductive SubprocessOutcome where
  | success (stdout_lines : List String)
  | calledProcessError
  | osError
deriving DecidableEq, Repr

/-- The exception escaping a git helper. -/
inductive PyExn where
  | osError
deriving DecidableEq, Repr

/-- `git_utils.get_changed_files`: on success the nonempty stdout lines are
the changed paths; `CalledProcessError` is caught and yields `[]`; any other
exception propagates. -/
def get_changed_files (outcome : SubprocessOutcome) : Except PyExn (List String) :=
  match outcome with
  | .success lines => .ok (lines.filter (fun l => l ≠ ""))
  | .calledProcessError => .ok []
  | .osError => .error .osError

/-- Outcome of the `git show branch:path` invocation inside
`get_file_content_from_branch`, with stdout as a whole string. -/
inductive ContentOutcome where
  | success (content : String)
  | calledProcessError
  | osError
deriving DecidableEq, Repr

/-- `git_utils.get_file_content_from_branch`: `CalledProcessError` (file
absent on the branch) is caught and yields `None`; other exceptions
propagate. -/
def get_file_content_from_branch (outcome : ContentOutcome) :
    Except PyExn (Option String) :=
  match outcome with
  | .success content => .ok (some content)
  | .calledProcessError => .ok none
  | .osError => .error .osError

/-- The inner loop of `get_baseline_file_sizes` for one pattern: walk
`all_files`, fetch matching files from the branch (an exception from the
fetch propagates), and record `(file_path, len(content))` for each file that
exists there. -/
def collectPatternSizes (all_files : List String)
    (showOutcome : String → ContentOutcome) (matchFn : String → Bool) :
    Except PyExn (List (String × ℕ)) :=
  all_files.foldlM
    (fun acc file =>
      if matchFn file then
        match get_file_content_from_branch (showOutcome file) with
        | .error e => .error e
        | .ok none => .ok acc
        | .ok (some content) => .ok (acc ++ [(file, content.length)])
      else .ok acc)
    []

/-- `git_utils.get_baseline_file_sizes`: list the reference branch with
`git ls-tree` (a `CalledProcessError` there is caught and yields the empty
dict), then per pattern collect `(path, size)` pairs; `matchFn` is the
external `Path(file_path).match(...)` predicate. -/
def get_baseline_file_sizes (patterns : List String)
    (lsOutcome : SubprocessOutcome) (showOutcome : String → ContentOutcome)
    (matchFn : String → String → Bool) :
    Except PyExn (List (String × List (String × ℕ))) :=
  match lsOutcome with
  | .calledProcessError => .ok []
  | .osError => .error .osError
  | .success all_files =>
      patterns.foldlM
        (fun acc pattern =>
          match collectPatternSizes all_files showOutcome (matchFn pattern) with
          | .error e => .error e
          | .ok sizes => .ok (acc ++ [(pattern, sizes)]))
        []

/-- **C7 counterexample.** Not every failure mode of the subprocess
invocation is absorbed: an `OSError`-family failure (e.g. the `git`
executable missing) escapes `get_changed_files` instead of yielding `[]`,
because only `subprocess.CalledProcessError` is caught. -/
theorem C7_counterexample :
    get_changed_files SubprocessOutcome.osError = Except.error PyExn.osError ∧
      get_changed_files SubprocessOutcome.osError ≠ Except.ok [] := by
  refine ⟨rfl, ?_⟩
  intro h
  simp [get_changed_files] at h

/-- **C7 (amended).** For the failure mode the code handles — the git
command completing with a nonzero exit status (`CalledProcessError`) — each
git query degrades without an escaping exception: `get_changed_files`
returns `[]`, `get_file_content_from_branch` returns `None`, and
`get_baseline_file_sizes` returns the empty mapping. An `OSError`-family
failure of the invocation itself, however, escapes all three. -/
theorem C7_git_failure_amended (patterns : List String)
    (showOutcome : String → ContentOutcome) (matchFn : String → String → Bool) :
    get_changed_files SubprocessOutcome.calledProcessError = Except.ok [] ∧
      get_file_content_from_branch ContentOutcome.calledProcessError =
        Except.ok none ∧
      get_baseline_file_sizes patterns SubprocessOutcome.calledProcessError
          showOutcome matchFn = Except.ok [] ∧
      get_changed_files SubprocessOutcome.osError = Except.error PyExn.osError ∧
      get_file_content_from_branch ContentOutcome.osError =
        Except.error PyExn.osError ∧
      get_baseline_file_sizes patterns SubprocessOutcome.osError
          showOutcome matchFn = Except.error PyExn.osError :=
  ⟨rfl, rfl, rfl, rfl, rfl, rfl⟩

/-- One visible line of the baseline-diff outlier analysis of
`validate_context_limits.main` (lines 568-619): an "insufficient baseline
data" status for a category, or an OUTLIER line (below the lower fence /
above the upper fence) for a changed file. -/
inductive BaselineReport where
  | insufficient (category : String)
  | outlierLow (path : String) (tokens : ℕ)
  | outlierHigh (path : String) (tokens : ℕ)
deriving DecidableEq, Repr

/-- The `for section, pattern in file_checks: if section == category` lookup:
the first pattern whose section equals the category, else `None`. -/
def findCatPattern (file_checks : List (String × String)) (category : String) :
    Option String :=
  (file_checks.find? (fun c => c.1 = category)).map (fun c => c.2)

/-- The per-pattern baseline statistics,
`compute_baseline_stats(sizes, iqr_multiplier)` over the reference-revision
sizes `baseline_data` delivered by `get_baseline_file_sizes`. -/
def baselineStatsFor (baseline_data : String → List ℤ) (mult : ℚ) :
    String → Option BaselineStats :=
  fun pattern => compute_baseline_stats (baseline_data pattern) mult

/-- The loop body of the baseline comparison for one `category, files_list`
entry of `category_files`: resolve the category's pattern (no pattern ⇒
`continue`), report "insufficient baseline data" when its stats are absent,
otherwise flag each *changed* file whose current token count falls below the
lower or above the upper reference fence. -/
def checkCategory (file_checks : List (String × String)) (changed : List String)
    (stats : String → Option BaselineStats) (category : String)
    (files : List (String × ℕ)) : List BaselineReport :=
  match findCatPattern file_checks category with
  | none => []
  | some pat =>
      match stats pat with
      | none => [BaselineReport.insufficient category]
      | some s =>
          files.filterMap (fun pt =>
            if pt.1 ∈ changed then
              if (pt.2 : ℚ) < s.lower_fence then
                some (BaselineReport.outlierLow pt.1 pt.2)
              else if (pt.2 : ℚ) > s.upper_fence then
                some (BaselineReport.outlierHigh pt.1 pt.2)
              else none
            else none)

/-- The whole baseline-diff analysis: the reports of every
`category_files` entry, in iteration order. -/
def baselineAnalysis (file_checks : List (String × String))
    (changed : List String) (stats : String → Option BaselineStats)
    (category_files : List (String × List (String × ℕ))) : List BaselineReport :=
  category_files.flatMap (fun cf => checkCategory file_checks changed stats cf.1 cf.2)

/-- **C3.** In baseline-diff mode, for a category of `category_files` whose
pattern resolves: when the reference stats exist, a file is flagged as an
outlier iff it is among the changed files and its current size falls outside
the reference fences; and when the category's reference sample count is
below 4 the analysis emits the visible "insufficient baseline data" report
instead of silently skipping the category. -/
theorem C3_baseline_diff_mode (file_checks : List (String × String))
    (changed : List String) (baseline_data : String → List ℤ) (mult : ℚ)
    (category : String) (files : List (String × ℕ)) (pat : String)
    (hpat : findCatPattern file_checks category = some pat) :
    (∀ s, baselineStatsFor baseline_data mult pat = some s →
      ∀ p t,
        ((BaselineReport.outlierLow p t ∈
              checkCategory file_checks changed
                (baselineStatsFor baseline_data mult) category files ∨
            BaselineReport.outlierHigh p t ∈
              checkCategory file_checks changed
                (baselineStatsFor baseline_data mult) category files) ↔
          (p, t) ∈ files ∧ p ∈ changed ∧
            ((t : ℚ) < s.lower_fence ∨ (t : ℚ) > s.upper_fence))) ∧
      ((baseline_data pat).length < 4 →
        checkCategory file_checks changed (baselineStatsFor baseline_data mult)
            category files =
          [BaselineReport.insufficient category]) := by
  constructor
  · intro s hs p t
    unfold checkCategory
    rw [hpat]
    dsimp only
    rw [hs]
    constructor
    · rintro (hmem | hmem)
      · obtain ⟨⟨p', t'⟩, hpt', hf⟩ := List.mem_filterMap.mp hmem
        dsimp only at hf
        split_ifs at hf with hch hlow hhigh <;> simp at hf
        obtain ⟨rfl, rfl⟩ := hf
        exact ⟨hpt', hch, Or.inl hlow⟩
      · obtain ⟨⟨p', t'⟩, hpt', hf⟩ := List.mem_filterMap.mp hmem
        dsimp only at hf
        split_ifs at hf with hch hlow hhigh <;> simp at hf
        obtain ⟨rfl, rfl⟩ := hf
        exact ⟨hpt', hch, Or.inr hhigh⟩
    · rintro ⟨hmem, hch, hout⟩
      by_cases hlow : (t : ℚ) < s.lower_fence
      · left
        refine List.mem_filterMap.mpr ⟨(p, t), hmem, ?_⟩
        rw [if_pos hch, if_pos hlow]
      · right
        have hhigh : (t : ℚ) > s.upper_fence := by tauto
        refine List.mem_filterMap.mpr ⟨(p, t), hmem, ?_⟩
        rw [if_pos hch, if_neg hlow, if_pos hhigh]
  · intro h4
    unfold checkCategory
    rw [hpat]
    dsimp only
    have hnone : baselineStatsFor baseline_data mult pat = none := by
      unfold baselineStatsFor compute_baseline_stats
      rw [if_pos h4]
    rw [hnone]

/-- Witness for C3: one category `"A"` with pattern `"p"`, an empty
reference sample, and one current file. -/
theorem C3_witness :
    findCatPattern [("A", "p")] "A" = some "p" ∧
      (((fun _ => ([] : List ℤ)) "p").length < 4 →
        checkCategory [("A", "p")] [] (baselineStatsFor (fun _ => []) 1) "A"
            [("f", 3)] =
          [BaselineReport.insufficient "A"]) :=
  ⟨by decide,
    (C3_baseline_diff_mode [("A", "p")] [] (fun _ => []) 1 "A" [("f", 3)] "p"
        (by decide)).2⟩

end ContextValidator
